import Mathlib

/-!
Shallow embedding of the landale event-bridge core (src-tauri/src), covering:

* the bizhawk Frame Decoder and TCP read loop (`bizhawk.rs`, `handle_stream`,
  `handle_events`, `init`);
* the OBS control-surface client (`obs.rs`, `handle_events`, `handle_status`);
* the socket.io Event Hub publish operation (external `socketioxide` crate,
  modelled from the spec where noted).

Bytes are `Nat` values below 256; machine `usize` is 64-bit, so the Rust
`str::parse::<usize>` is modelled with an explicit `2 ^ 64` overflow bound.
Rust panics (`unwrap` / `expect`) are explicit outcomes of the decode step.
-/

namespace Landale

/-! ## Rust primitive operations used by the decoder -/

/-- Rust `char::is_whitespace`: the Unicode `White_Space` property.
These are exactly the 25 code points with that property. -/
def isRustWhitespace (c : Char) : Bool :=
  let n := c.toNat
  n == 0x09 || n == 0x0A || n == 0x0B || n == 0x0C || n == 0x0D || n == 0x20 ||
  n == 0x85 || n == 0xA0 || n == 0x1680 ||
  (0x2000 ≤ n && n ≤ 0x200A) ||
  n == 0x2028 || n == 0x2029 || n == 0x202F || n == 0x205F || n == 0x3000

/-- Accumulator pass for `splitWhitespace`: `acc` holds the current token's
characters in reverse. Mirrors Rust `str::split_whitespace`, which yields the
maximal nonempty runs of non-whitespace characters. -/
def splitWhitespaceAux : List Char → List Char → List (List Char)
  | [], acc => if acc.isEmpty then [] else [acc.reverse]
  | c :: cs, acc =>
    if isRustWhitespace c then
      if acc.isEmpty then splitWhitespaceAux cs []
      else acc.reverse :: splitWhitespaceAux cs []
    else splitWhitespaceAux cs (c :: acc)

/-- Rust `str::split_whitespace`, collected to a list of tokens. -/
def splitWhitespace (cs : List Char) : List (List Char) :=
  splitWhitespaceAux cs []

/-- Rust `<usize as FromStr>::from_str` on a 64-bit target: an optional
leading `+`, then one or more ASCII digits, rejecting overflow past
`2 ^ 64 - 1`. Returns `none` exactly when Rust returns `Err`. -/
def parseUsize (t : List Char) : Option Nat :=
  let digits := match t with
    | '+' :: rest => rest
    | other => other
  if digits.isEmpty then none
  else if digits.all (fun c => c.isDigit) then
    let v := digits.foldl (fun a c => a * 10 + (c.toNat - 48)) 0
    if v < 2 ^ 64 then some v else none
  else none

/-! ## UTF-8 validation and decoding (Rust `std::str::from_utf8`)

Rust validates strict UTF-8: no overlong encodings (hence the `0xC2` lower
bound and the tightened second-byte ranges after `0xE0` and `0xF0`), no
surrogates (second byte capped after `0xED`), and nothing above `U+10FFFF`
(second byte capped after `0xF4`). -/

/-- UTF-8 continuation byte test. -/
def isCont (b : Nat) : Bool := 0x80 ≤ b && b ≤ 0xBF

/-- Decode a byte list as strict UTF-8, `none` on any invalid sequence;
mirrors Rust `std::str::from_utf8` (which errors in exactly these cases). -/
def utf8Decode : List Nat → Option (List Char)
  | [] => some []
  | b :: rest =>
    if b < 0x80 then
      (utf8Decode rest).map (fun cs => Char.ofNat b :: cs)
    else if b < 0xC2 then none
    else if b ≤ 0xDF then
      match rest with
      | b2 :: rest2 =>
        if isCont b2 then
          (utf8Decode rest2).map
            (fun cs => Char.ofNat ((b - 0xC0) * 0x40 + (b2 - 0x80)) :: cs)
        else none
      | [] => none
    else if b ≤ 0xEF then
      match rest with
      | b2 :: b3 :: rest3 =>
        let lo2 := if b == 0xE0 then 0xA0 else 0x80
        let hi2 := if b == 0xED then 0x9F else 0xBF
        if (lo2 ≤ b2 && b2 ≤ hi2) && isCont b3 then
          (utf8Decode rest3).map
            (fun cs =>
              Char.ofNat ((b - 0xE0) * 0x1000 + (b2 - 0x80) * 0x40 + (b3 - 0x80)) :: cs)
        else none
      | _ => none
    else if b ≤ 0xF4 then
      match rest with
      | b2 :: b3 :: b4 :: rest4 =>
        let lo2 := if b == 0xF0 then 0x90 else 0x80
        let hi2 := if b == 0xF4 then 0x8F else 0xBF
        if (lo2 ≤ b2 && b2 ≤ hi2) && (isCont b3 && isCont b4) then
          (utf8Decode rest4).map
            (fun cs =>
              Char.ofNat ((b - 0xF0) * 0x40000 + (b2 - 0x80) * 0x1000 +
                (b3 - 0x80) * 0x40 + (b4 - 0x80)) :: cs)
        else none
      | _ => none
    else none

/-- UTF-8 encoding of one Unicode scalar value (used only to build concrete
wire inputs in theorems). -/
def utf8EncodeChar (n : Nat) : List Nat :=
  if n < 0x80 then [n]
  else if n < 0x800 then [0xC0 + n / 0x40, 0x80 + n % 0x40]
  else if n < 0x10000 then
    [0xE0 + n / 0x1000, 0x80 + (n / 0x40) % 0x40, 0x80 + n % 0x40]
  else
    [0xF0 + n / 0x40000, 0x80 + (n / 0x1000) % 0x40,
     0x80 + (n / 0x40) % 0x40, 0x80 + n % 0x40]

/-- UTF-8 byte encoding of a string (builds concrete wire inputs). -/
def strToBytes (s : String) : List Nat :=
  s.data.flatMap (fun c => utf8EncodeChar c.toNat)

/-! ## Events -/

/-- Payload of a published socket.io event: a plain string (bizhawk messages
and error messages), the `MicrophoneStatus { muted }` shape, or the opaque
provider stream status. -/
inductive Payload where
  | str (s : String)
  | mic (muted : Bool)
  | status (raw : String)
  deriving DecidableEq, Repr

/-- One event published on the hub: `io.emit(namespace, payload)`. -/
structure Event where
  ns : String
  payload : Payload
  deriving DecidableEq, Repr

/-- Number of events in a list carrying the given namespace tag. -/
def countNs (n : String) (evs : List Event) : Nat :=
  (evs.filter (fun e => e.ns == n)).length

/-! ## bizhawk.rs: the Frame Decoder (body of `handle_stream`, lines 51-64)

Each successfully read chunk is handled by:
```text
let text = std::str::from_utf8(data)?;
let mut parts = text.split_whitespace();
let message_length: usize = parts.next().unwrap().parse()
    .expect("Error parsing message length");
let message: String = parts.collect::<Vec<&str>>().join(" ");
io.emit("bizhawk:message", message).ok();
```
`parts.next()` on an empty iterator panics via `unwrap`; a failed parse
panics via `expect`. There is no buffering of partial data between reads. -/

/-- Result of running the per-chunk decode on already UTF-8-decoded text. -/
inductive DecodeResult where
  | panic
  | frame (declaredLength : Nat) (body : String)
  deriving DecidableEq, Repr

/-- Decode one chunk's text as a frame: first whitespace token parsed as a
decimal `usize` (panicking on absence or parse failure), remaining tokens
rejoined with single spaces as the body. -/
def decodeFrame (cs : List Char) : DecodeResult :=
  match splitWhitespace cs with
  | [] => .panic
  | t :: rest =>
    match parseUsize t with
    | none => .panic
    | some n => .frame n (String.mk (List.intercalate [' '] rest))

/-! ## bizhawk.rs: the connection read loop (`handle_stream`, lines 38-73) -/

/-- One observable result of `stream.try_read` (after `readable().await`):
a successful read of the listed bytes (`Ok(n)`, with `Ok(0)` as the empty
list), a spurious readiness (`Err(WouldBlock)`), or a real I/O error (any
other `Err`, including a failure of `readable()` itself). -/
inductive ReadEvent where
  | chunk (bs : List Nat)
  | wouldBlock
  | ioError
  deriving DecidableEq, Repr

/-- Outcome of one iteration of the `handle_stream` loop. -/
inductive StepOutcome where
  | cont
  | emit (declaredLength : Nat) (body : String)
  | errored
  | panicked
  deriving DecidableEq, Repr

/-- Decode one nonempty read chunk exactly as `handle_stream` does:
UTF-8 failure propagates as an error return (`?`), a bad or missing length
token panics, otherwise the frame body is emitted and the loop continues. -/
def processChunk (bs : List Nat) : StepOutcome :=
  if bs.isEmpty then .cont
  else
    match utf8Decode bs with
    | none => .errored
    | some text =>
      match decodeFrame text with
      | .panic => .panicked
      | .frame n body => .emit n body

/-- One iteration of the read loop on one readiness event. -/
def step (ev : ReadEvent) : StepOutcome :=
  match ev with
  | .chunk bs => processChunk bs
  | .wouldBlock => .cont
  | .ioError => .errored

/-- How a (finite prefix of a) run of the loop ended. -/
inductive TermStatus where
  | running
  | errored
  | panicked
  deriving DecidableEq, Repr

/-- Run the `handle_stream` loop over a finite sequence of readiness events,
collecting the decoded frames in order and the way the loop ended
(`running` if the event prefix was exhausted with the loop still alive). -/
def runStream : List ReadEvent → List (Nat × String) × TermStatus
  | [] => ([], .running)
  | ev :: evs =>
    match step ev with
    | .cont => runStream evs
    | .emit n body =>
      let (fs, t) := runStream evs
      ((n, body) :: fs, t)
    | .errored => ([], .errored)
    | .panicked => ([], .panicked)

/-- The events a step publishes: one `bizhawk:message` per decoded frame. -/
def stepEmissions (o : StepOutcome) : List Event :=
  match o with
  | .emit _ body => [⟨"bizhawk:message", .str body⟩]
  | _ => []

/-- All events published during a run of the loop. -/
def runEmissions (evs : List ReadEvent) : List Event :=
  (runStream evs).1.map (fun f => ⟨"bizhawk:message", .str f.2⟩)

/-- Collect frames from a list of per-chunk outcomes, stopping at the first
error or panic: the shape a memoryless per-chunk decoder produces. -/
def collectOutcomes : List StepOutcome → List (Nat × String) × TermStatus
  | [] => ([], .running)
  | o :: os =>
    match o with
    | .cont => collectOutcomes os
    | .emit n body =>
      let (fs, t) := collectOutcomes os
      ((n, body) :: fs, t)
    | .errored => ([], .errored)
    | .panicked => ([], .panicked)

/-- `try_read` with the 1024-byte stack buffer of `handle_stream` (line 45):
from the pending byte stream the kernel delivers at most 1024 bytes; the
remainder stays pending for later reads. -/
def tryRead (pending : List Nat) : List Nat × List Nat :=
  (pending.take 1024, pending.drop 1024)

/-- One read-and-decode step against the pending byte stream: read up to
1024 bytes, decode that chunk alone, leave the rest pending. -/
def stepPending (pending : List Nat) : StepOutcome × List Nat :=
  let (c, rest) := tryRead pending
  (processChunk c, rest)

/-! ## bizhawk.rs: `handle_events` (lines 16-36) and `init` (lines 8-14)

`init` binds the TCP listener; on `Err(e)` the adapter emits one
`bizhawk:error` event carrying `e.to_string()` and returns `Err(e)`.
On success it accepts one connection; an accept error is only logged and
the function returns `Ok(())`; an accepted stream is handled by a spawned
`handle_stream` task (modelled separately by `runStream`). -/

/-- Result of a fallible setup step (`init` / `Client::connect`), carrying
the error's display string on failure. -/
inductive InitResult where
  | ok
  | err (msg : String)
  deriving DecidableEq, Repr

/-- Result of `listener.accept()`. -/
inductive AcceptResult where
  | ok
  | err (msg : String)
  deriving DecidableEq, Repr

/-- How an adapter task ended: returned `Ok`, still looping when the
modelled input prefix ran out, or returned `Err msg`. -/
inductive TaskEnd where
  | ok
  | running
  | failed (msg : String)
  deriving DecidableEq, Repr

/-- `bizhawk::handle_events`: events it publishes itself and how it returns.
Decoded-stream events are published by the spawned `handle_stream` task,
not by this function. -/
def bizhawkHandleEvents (i : InitResult) (acc : AcceptResult) :
    List Event × TaskEnd :=
  match i with
  | .err msg => ([⟨"bizhawk:error", .str msg⟩], .failed msg)
  | .ok =>
    match acc with
    | .ok => ([], .ok)
    | .err _ => ([], .ok)

/-! ## obs.rs: the control-surface client -/

/-- A provider-pushed OBS event, as matched by `handle_events` (lines 41-50):
only `Event::InputMuteStateChanged { name, muted }` is inspected, every
other variant falls to the wildcard arm. -/
inductive ObsEvent where
  | inputMuteStateChanged (name : String) (muted : Bool)
  | other
  deriving DecidableEq, Repr

/-- The hardcoded input name the microphone filter matches exactly
(obs.rs line 43). -/
def micInputName : String := "[🎙️] RE20"

/-- Events republished for one provider event: an `obs:microphone` event
with the `MicrophoneStatus { muted }` payload on an exact name match,
nothing otherwise. -/
def obsProcessEvent (ev : ObsEvent) : List Event :=
  match ev with
  | .inputMuteStateChanged name muted =>
    if name = micInputName then [⟨"obs:microphone", .mic muted⟩] else []
  | .other => []

/-- `obs::handle_events` (lines 26-55): on connect failure emit one
`obs:error` and return the error; on success, subscribing to the event
stream may itself fail (`client.events()?`, no emission), otherwise each
pushed event is filtered through `obsProcessEvent` and the task returns
`Ok` when the stream ends. -/
def obsHandleEvents (c : InitResult)
    (sub : Except String (List ObsEvent)) : List Event × TaskEnd :=
  match c with
  | .err msg => ([⟨"obs:error", .str msg⟩], .failed msg)
  | .ok =>
    match sub with
    | .error e => ([], .failed e)
    | .ok evs => (evs.flatMap obsProcessEvent, .ok)

/-- The 1-second poll loop of `obs::handle_status` (lines 66-70) over a
finite prefix of poll results: each successful `streaming().status()`
is republished as `obs:status`; a failed one propagates through `?`
with no emission. The interval stream never ends, so exhausting the
prefix leaves the loop `running`. -/
def statusRun : List (Except String String) → List Event × TaskEnd
  | [] => ([], .running)
  | .error e :: _ => ([], .failed e)
  | .ok raw :: rest =>
    let (evs, t) := statusRun rest
    (⟨"obs:status", .status raw⟩ :: evs, t)

/-- `obs::handle_status` (lines 56-71): on connect failure emit one
`obs:error` and return the error, otherwise run the poll loop. -/
def obsHandleStatus (c : InitResult)
    (polls : List (Except String String)) : List Event × TaskEnd :=
  match c with
  | .err msg => ([⟨"obs:error", .str msg⟩], .failed msg)
  | .ok => statusRun polls

/-! ## The Event Hub (socket.io broadcast) -/

/-- Result of one `io.emit` call, as seen by callers. -/
inductive EmitResult where
  | ok
  | error (msg : String)
  deriving DecidableEq, Repr

/-- Modelled from the spec: the Event Hub's publish operation (the
`socketioxide` broadcast layer, an external crate whose code is not in
this repository). Publishing delivers the event to every currently
registered subscriber and succeeds regardless of how many there are;
with zero subscribers the event is delivered to nobody and discarded.
The function is total, so a publish always returns. -/
def hubPublish (subs : List Nat) (e : Event) :
    EmitResult × List (Nat × Event) :=
  (.ok, subs.map (fun s => (s, e)))

/-- The adapters' use of a publish result: every call site writes
`io.emit(..).ok()` (bizhawk.rs line 63, obs.rs lines 45 and 69) and then
continues the surrounding loop, so the continuation is a constant
function of the emit result. -/
def emitThenContinue : EmitResult → StepOutcome :=
  fun _ => .cont

/-- True of the step outcomes that end the `handle_stream` task (an error
return or a panic). -/
def isTerminalOutcome (o : StepOutcome) : Bool :=
  match o with
  | .errored => true
  | .panicked => true
  | _ => false

/-! ## Theorems -/

/-- C1 (counterexample): chunk-boundary invariance fails. The byte
sequence of `"5 hello"` split into the two reads `"5 hel"` and `"lo"`
decodes to the frame `(5, "hel")` followed by a panic (on length token
`"lo"`), while the same bytes in a single read decode to the one frame
`(5, "hello")`; the published `bizhawk:message` events differ as well. -/
theorem c1_chunk_invariance_counterexample :
    strToBytes "5 hel" ++ strToBytes "lo" = strToBytes "5 hello" ∧
    runStream [.chunk (strToBytes "5 hel"), .chunk (strToBytes "lo")] ≠
      runStream [.chunk (strToBytes "5 hello")] ∧
    runEmissions [.chunk (strToBytes "5 hel"), .chunk (strToBytes "lo")] ≠
      runEmissions [.chunk (strToBytes "5 hello")] := by
  decide

/-- C1 (amended): the decoder buffers nothing between reads — each read
chunk is decoded as one independent frame attempt, so a run of the loop
is exactly the per-chunk outcomes collected in order (frames until the
first error or panic). Chunk-boundary invariance therefore holds only
for the trivial single-read delivery. -/
theorem c1_decoder_is_memoryless (evs : List ReadEvent) :
    runStream evs = collectOutcomes (evs.map step) := by
  induction evs with
  | nil => rfl
  | cons e es ih =>
    cases h : step e <;> simp [runStream, collectOutcomes, h, ih]

/-- C2 (counterexample): the chunk `"x hello"` has first token `"x"`,
which does not parse as a `usize`, and the decode step panics on it
(the `expect` call), rather than rejecting the frame gracefully. -/
theorem c2_nonnumeric_length_counterexample :
    splitWhitespace (String.data "x hello") =
      [['x'], ['h', 'e', 'l', 'l', 'o']] ∧
    parseUsize ['x'] = none ∧
    decodeFrame (String.data "x hello") = .panic ∧
    step (.chunk (strToBytes "x hello")) = .panicked := by
  decide

/-- C2 (amended): for every chunk whose first whitespace-separated token
fails to parse as a decimal `usize`, the decode step panics (terminating
the connection task), and no `bizhawk:message` event is published for
that chunk. -/
theorem c2_nonnumeric_length_panics (bs : List Nat) (cs t : List Char)
    (ts : List (List Char)) (hdec : utf8Decode bs = some cs)
    (hsplit : splitWhitespace cs = t :: ts) (hparse : parseUsize t = none) :
    decodeFrame cs = .panic ∧ step (.chunk bs) = .panicked ∧
    stepEmissions (step (.chunk bs)) = [] := by
  have hd : decodeFrame cs = .panic := by
    simp [decodeFrame, hsplit, hparse]
  have hne : bs ≠ [] := by
    intro h
    subst h
    have hcs : cs = [] := (Option.some.inj hdec).symm
    subst hcs
    exact List.noConfusion hsplit
  have hstep : step (.chunk bs) = .panicked := by
    cases bs with
    | nil => exact absurd rfl hne
    | cons b bs' => simp [step, processChunk, hdec, hd]
  exact ⟨hd, hstep, by rw [hstep]; rfl⟩

/-- C2 (witness): the amended statement at the concrete chunk
`"x hello"`. -/
theorem c2_nonnumeric_length_panics_witness :
    decodeFrame (String.data "x hello") = .panic ∧
    step (.chunk (strToBytes "x hello")) = .panicked ∧
    stepEmissions (step (.chunk (strToBytes "x hello"))) = [] :=
  c2_nonnumeric_length_panics (strToBytes "x hello")
    (String.data "x hello") ['x'] [['h', 'e', 'l', 'l', 'o']]
    (by decide) (by decide) (by decide)

/-- C3: when the control-surface connect fails with message `msg`, each of
the two sub-adapter tasks (`obs::handle_events` and `obs::handle_status`)
publishes `obs:error` exactly once and then returns that error; across
both tasks, zero `obs:microphone` and zero `obs:status` events are ever
published on that run. -/
theorem c3_connect_failure_one_error_each (msg : String)
    (sub : Except String (List ObsEvent))
    (polls : List (Except String String)) :
    countNs "obs:error" (obsHandleEvents (.err msg) sub).1 = 1 ∧
    countNs "obs:error" (obsHandleStatus (.err msg) polls).1 = 1 ∧
    countNs "obs:microphone"
      ((obsHandleEvents (.err msg) sub).1 ++
        (obsHandleStatus (.err msg) polls).1) = 0 ∧
    countNs "obs:status"
      ((obsHandleEvents (.err msg) sub).1 ++
        (obsHandleStatus (.err msg) polls).1) = 0 ∧
    (obsHandleEvents (.err msg) sub).2 = .failed msg ∧
    (obsHandleStatus (.err msg) polls).2 = .failed msg := by
  refine ⟨?_, ?_, ?_, ?_, rfl, rfl⟩ <;>
    simp [obsHandleEvents, obsHandleStatus, countNs, List.filter]

/-- C4 (counterexample): the read loop's termination conditions are not
"peer closed or real I/O error". On the successful nonempty read
`[0xFF]` — neither a peer-close signal (`Ok(0)`) nor an I/O error — the
loop terminates (UTF-8 validation fails and the error propagates), while
on the peer-close signal `Ok(0)` itself the loop does not terminate. -/
theorem c4_termination_conditions_counterexample :
    isTerminalOutcome (step (.chunk [255])) = true ∧
    ReadEvent.chunk [255] ≠ .chunk [] ∧
    ReadEvent.chunk [255] ≠ .ioError ∧
    isTerminalOutcome (step (.chunk [])) = false := by
  decide

/-- C4 (amended): the loop never terminates on a would-block condition
and treats a zero-byte read (including peer close) as a no-op; it
terminates with an error exactly on real I/O errors and on nonempty
chunks that are invalid UTF-8, panics on nonempty chunks whose decoded
text has a missing or non-numeric length token, and emits a frame and
continues otherwise. -/
theorem c4_loop_termination_behaviour :
    step .wouldBlock = .cont ∧
    step (.chunk []) = .cont ∧
    step .ioError = .errored ∧
    (∀ bs : List Nat, bs ≠ [] → utf8Decode bs = none →
      step (.chunk bs) = .errored) ∧
    (∀ (bs : List Nat) (cs : List Char), bs ≠ [] →
      utf8Decode bs = some cs → decodeFrame cs = .panic →
      step (.chunk bs) = .panicked) ∧
    (∀ (bs : List Nat) (cs : List Char) (n : Nat) (b : String), bs ≠ [] →
      utf8Decode bs = some cs → decodeFrame cs = .frame n b →
      step (.chunk bs) = .emit n b) := by
  refine ⟨rfl, rfl, rfl, ?_, ?_, ?_⟩
  · intro bs hne hbad
    cases bs with
    | nil => exact absurd rfl hne
    | cons b bs' => simp [step, processChunk, hbad]
  · intro bs cs hne hdec hpanic
    cases bs with
    | nil => exact absurd rfl hne
    | cons b bs' => simp [step, processChunk, hdec, hpanic]
  · intro bs cs n body hne hdec hframe
    cases bs with
    | nil => exact absurd rfl hne
    | cons b bs' => simp [step, processChunk, hdec, hframe]

/-- C4 (witness): the amended behaviour at concrete inputs — a
would-block retry, a zero-byte no-op, an I/O-error termination, a
UTF-8-failure termination on `[0xFF]`, a panic on `"x"`, and a decoded
frame on `"5 hi"`. -/
theorem c4_loop_termination_behaviour_witness :
    step .wouldBlock = .cont ∧
    step (.chunk []) = .cont ∧
    step .ioError = .errored ∧
    step (.chunk [255]) = .errored ∧
    step (.chunk (strToBytes "x")) = .panicked ∧
    step (.chunk (strToBytes "5 hi")) = .emit 5 "hi" :=
  ⟨c4_loop_termination_behaviour.1,
   c4_loop_termination_behaviour.2.1,
   c4_loop_termination_behaviour.2.2.1,
   c4_loop_termination_behaviour.2.2.2.1 [255] (by decide) (by decide),
   c4_loop_termination_behaviour.2.2.2.2.1 (strToBytes "x") ['x']
     (by decide) (by decide) (by decide),
   c4_loop_termination_behaviour.2.2.2.2.2 (strToBytes "5 hi")
     (String.data "5 hi") 5 "hi" (by decide) (by decide) (by decide)⟩

/-- C5: the microphone filter is an exact-match filter on the configured
input name. A mute-state change for any other input name — including
partial or prefix matches — publishes nothing, while a change for the
exact name publishes one `obs:microphone` event with the
`MicrophoneStatus { muted }` payload; non-mute events publish nothing. -/
theorem c5_mic_exact_match_filter (name : String) (muted : Bool)
    (h : name ≠ micInputName) :
    obsProcessEvent (.inputMuteStateChanged name muted) = [] ∧
    obsProcessEvent (.inputMuteStateChanged micInputName muted) =
      [⟨"obs:microphone", .mic muted⟩] ∧
    obsProcessEvent .other = [] := by
  refine ⟨?_, ?_, rfl⟩ <;> simp [obsProcessEvent, h]

/-- C5 (witness): the prefix name `"[🎙️] RE2"` of the configured input
name is dropped, while the exact name republishes. -/
theorem c5_mic_exact_match_filter_witness :
    obsProcessEvent (.inputMuteStateChanged "[🎙️] RE2" true) = [] ∧
    obsProcessEvent (.inputMuteStateChanged micInputName true) =
      [⟨"obs:microphone", .mic true⟩] ∧
    obsProcessEvent .other = [] :=
  c5_mic_exact_match_filter "[🎙️] RE2" true (by decide)

/-- C6: decoding the single write `"5 hello"` yields exactly one frame,
with declared length `5` and body `"hello"` (first token parsed and
discarded, remaining tokens rejoined), and the run publishes exactly one
event, with namespace `bizhawk:message` and payload `"hello"`. -/
theorem c6_single_write_hello :
    decodeFrame (String.data "5 hello") = .frame 5 "hello" ∧
    runStream [.chunk (strToBytes "5 hello")] = ([(5, "hello")], .running) ∧
    runEmissions [.chunk (strToBytes "5 hello")] =
      [⟨"bizhawk:message", .str "hello"⟩] := by
  decide

/-- C7: when binding the emulator TCP listener fails with message `msg`,
`bizhawk::handle_events` publishes exactly one event — namespace
`bizhawk:error`, payload the failure message — and terminates by
returning the error (a normal error return, not a panic or abort). -/
theorem c7_bind_failure_one_error_event (msg : String)
    (acc : AcceptResult) :
    (bizhawkHandleEvents (.err msg) acc).1 =
      [⟨"bizhawk:error", .str msg⟩] ∧
    countNs "bizhawk:error" (bizhawkHandleEvents (.err msg) acc).1 = 1 ∧
    (bizhawkHandleEvents (.err msg) acc).2 = .failed msg := by
  refine ⟨rfl, ?_, rfl⟩
  simp [bizhawkHandleEvents, countNs, List.filter]

/-- C8: the Event Hub's publish never fails due to consumer state. With
zero subscribers it returns successfully and delivers the event to
nobody (the event is discarded); with any subscriber list it succeeds
and delivers one copy per subscriber; and the publishing adapters'
continuation (`io.emit(..).ok(); continue`) is the same no matter what
the publish call returned. -/
theorem c8_publish_zero_subscribers (e : Event) (subs : List Nat)
    (r : EmitResult) :
    hubPublish [] e = (.ok, []) ∧
    (hubPublish subs e).1 = .ok ∧
    (hubPublish subs e).2.length = subs.length ∧
    emitThenContinue r = .cont := by
  exact ⟨rfl, rfl, by simp [hubPublish], rfl⟩

/-- C9: each read-and-decode step consumes at most 1024 bytes of the
pending stream and decodes that chunk alone as one frame attempt: the
step on pending bytes `p` is exactly `processChunk` of the first 1024
bytes with the remainder left pending, so when more than 1024 bytes are
pending the step's outcome is unchanged by any bytes past the first
1024, and those bytes are parsed in a later step as an independent
frame attempt. -/
theorem c9_read_cap_1024 (p : List Nat) :
    (tryRead p).1.length ≤ 1024 ∧
    stepPending p = (processChunk (p.take 1024), p.drop 1024) ∧
    (∀ extra : List Nat, 1024 ≤ p.length →
      (stepPending (p ++ extra)).1 = (stepPending p).1 ∧
      (stepPending (p ++ extra)).2 = p.drop 1024 ++ extra) := by
  refine ⟨by simp [tryRead], rfl, ?_⟩
  intro extra h
  constructor
  · simp [stepPending, tryRead, List.take_append_of_le_length h]
  · simp [stepPending, tryRead, List.drop_append_of_le_length h]

/-- C9 (witness): with 1024 digit bytes pending, appending the bytes of
`" 9"` past the cap leaves the step's decode outcome unchanged and the
appended bytes pending for a later read. -/
theorem c9_read_cap_1024_witness :
    (tryRead (List.replicate 1024 48)).1.length ≤ 1024 ∧
    (stepPending (List.replicate 1024 48 ++ [32, 57])).1 =
      (stepPending (List.replicate 1024 48)).1 ∧
    (stepPending (List.replicate 1024 48 ++ [32, 57])).2 =
      (List.replicate 1024 48).drop 1024 ++ [32, 57] :=
  ⟨(c9_read_cap_1024 (List.replicate 1024 48)).1,
   ((c9_read_cap_1024 (List.replicate 1024 48)).2.2 [32, 57]
     (by rw [List.length_replicate])).1,
   ((c9_read_cap_1024 (List.replicate 1024 48)).2.2 [32, 57]
     (by rw [List.length_replicate])).2⟩

/-- C10: a nonempty read chunk that is not valid UTF-8 makes the stream
handler return an error: the run terminates immediately in the errored
state, and no `bizhawk:message` event is published for that chunk or for
any later read of that connection. -/
theorem c10_invalid_utf8_terminates (bs : List Nat)
    (rest : List ReadEvent) (hne : bs ≠ [])
    (hbad : utf8Decode bs = none) :
    step (.chunk bs) = .errored ∧
    runStream (.chunk bs :: rest) = ([], .errored) ∧
    runEmissions (.chunk bs :: rest) = [] := by
  have hstep : step (.chunk bs) = .errored := by
    cases bs with
    | nil => exact absurd rfl hne
    | cons b bs' => simp [step, processChunk, hbad]
  refine ⟨hstep, ?_, ?_⟩
  · simp [runStream, hstep]
  · simp [runEmissions, runStream, hstep]

/-- C10 (witness): the lone byte `0xF0` — the first byte of a 4-byte
UTF-8 sequence cut off at a read boundary — terminates the run even
though a well-formed frame follows in the next read. -/
theorem c10_invalid_utf8_terminates_witness :
    step (.chunk [240]) = .errored ∧
    runStream [.chunk [240], .chunk (strToBytes "5 hi")] =
      ([], .errored) ∧
    runEmissions [.chunk [240], .chunk (strToBytes "5 hi")] = [] :=
  c10_invalid_utf8_terminates [240] [.chunk (strToBytes "5 hi")]
    (by decide) (by decide)

end Landale
